import Mathlib

/-!
Verification of the OpenHands VIM microagent (src/openhands/microagent/vim/).

The repository drives a headless Neovim process over RPC.  We give a shallow
embedding: file contents and buffer lines are lists of characters, the
editor/session state is an explicit record, and each Python method of
`VimMicroAgent` (vim_agent.py), `VimOperations` (operations.py) and the
integration layer (integration.py) becomes a Lean function on that state.

External components are modelled by their documented observable behaviour:
  * the Neovim buffer/cursor primitives (`:edit`, `:{n}`, `i`-insert,
    `normal! j0`, `normal! $`, `:enew`, `:write`, `/`-search) act on the
    explicit buffer and cursor of the state record;
  * Python exceptions that escape a `VimOperations` function are modelled
    with `Except`, carrying the message and the state at the raise point;
  * remote failures are modelled through the `connected` flag: every
    primitive first runs `_ensure_connected`, which in the model succeeds
    exactly on connected states (the connect-on-demand path needs a live
    external server).
-/

/-- Python strings are modelled as lists of characters. -/
abbrev Str := List Char

/-- The characters Python `str.strip()` / `str.lstrip()` remove. -/
def pyIsSpace (c : Char) : Bool :=
  c = ' ' || c = '\t' || c = '\n' || c = '\r' || c = '\x0b' || c = '\x0c'

/-- Coerce a Lean string literal to the character-list strings of the model. -/
def str (s : String) : Str := s.data

/-- Python `str.strip()`: drop whitespace from both ends. -/
def pyStripL (l : Str) : Str :=
  ((l.dropWhile pyIsSpace).reverse.dropWhile pyIsSpace).reverse

/-- The indentation count used at operations.py:74 and :239:
`len(line) - len(line.lstrip())`. -/
def indentOf (l : Str) : Nat := l.length - (l.dropWhile pyIsSpace).length

/-- Python `not line.strip()`: the line is empty after stripping. -/
def isBlankL (l : Str) : Bool := (l.dropWhile pyIsSpace).isEmpty

/-- Python content.split on the newline character (always at least one piece). -/
def splitNlL : Str → List Str
  | [] => [[]]
  | c :: cs =>
    if c = '\n' then [] :: splitNlL cs
    else
      match splitNlL cs with
      | [] => [[c]]
      | l :: ls => (c :: l) :: ls

/-- Python newline-join of the lines. -/
def joinNlL : List Str → Str
  | [] => []
  | [l] => l
  | l :: l2 :: ls => l ++ '\n' :: joinNlL (l2 :: ls)

theorem splitNlL_ne_nil (cs : Str) : splitNlL cs ≠ [] := by
  cases cs with
  | nil => simp [splitNlL]
  | cons c cs =>
    simp only [splitNlL]
    split
    · simp
    · split <;> simp

theorem joinNlL_cons (x : Str) (ls : List Str) (h : ls ≠ []) :
    joinNlL (x :: ls) = x ++ '\n' :: joinNlL ls := by
  cases ls with
  | nil => exact absurd rfl h
  | cons a as => rfl

theorem joinNlL_splitNlL (cs : Str) : joinNlL (splitNlL cs) = cs := by
  induction cs with
  | nil => rfl
  | cons c cs ih =>
    simp only [splitNlL]
    split
    · rename_i hc
      rw [joinNlL_cons [] (splitNlL cs) (splitNlL_ne_nil cs), ih, hc]
      rfl
    · rcases h : splitNlL cs with _ | ⟨l, ls⟩
      · exact absurd h (splitNlL_ne_nil cs)
      · rw [h] at ih
        cases ls with
        | nil => simp only [joinNlL] at ih ⊢; rw [ih]
        | cons m ms =>
          rw [joinNlL_cons (c :: l) (m :: ms) (by simp),
              joinNlL_cons l (m :: ms) (by simp)] at *
          rw [List.cons_append, ih]

theorem joinNlL_append (xs ys : List Str) (hx : xs ≠ []) (hy : ys ≠ []) :
    joinNlL (xs ++ ys) = joinNlL xs ++ '\n' :: joinNlL ys := by
  induction xs with
  | nil => exact absurd rfl hx
  | cons x xs ih =>
    cases xs with
    | nil =>
      have h1 : ([x] : List Str) ++ ys = x :: ys := by simp
      rw [h1, joinNlL_cons x ys hy]
      rfl
    | cons x2 xs2 =>
      have h2 : x2 :: xs2 ≠ [] := by simp
      have h3 : (x2 :: xs2) ++ ys ≠ [] := by simp
      calc joinNlL ((x :: x2 :: xs2) ++ ys)
          = joinNlL (x :: ((x2 :: xs2) ++ ys)) := by simp
        _ = x ++ '\n' :: joinNlL ((x2 :: xs2) ++ ys) := joinNlL_cons _ _ h3
        _ = x ++ '\n' :: (joinNlL (x2 :: xs2) ++ '\n' :: joinNlL ys) := by rw [ih h2]
        _ = (x ++ '\n' :: joinNlL (x2 :: xs2)) ++ '\n' :: joinNlL ys := by simp
        _ = joinNlL (x :: x2 :: xs2) ++ '\n' :: joinNlL ys := by
              rw [joinNlL_cons _ _ h2]

/-- Splicing a nonempty block of lines into a line list keeps its joined text
contiguous inside the joined whole. -/
theorem joinNlL_mid (A C B : List Str) (hB : B ≠ []) :
    ∃ x y, joinNlL (A ++ B ++ C) = x ++ joinNlL B ++ y := by
  induction A with
  | nil =>
    cases C with
    | nil => exact ⟨[], [], by simp⟩
    | cons c cs =>
      refine ⟨[], '\n' :: joinNlL (c :: cs), ?_⟩
      simp only [List.nil_append]
      exact joinNlL_append B (c :: cs) hB (by simp)
  | cons a A ih =>
    obtain ⟨x, y, hxy⟩ := ih
    have hne : A ++ B ++ C ≠ [] := by
      intro h
      rcases List.append_eq_nil.mp h with ⟨h1, -⟩
      exact hB (List.append_eq_nil.mp h1).2
    refine ⟨a ++ '\n' :: x, y, ?_⟩
    have hsplit : (a :: A) ++ B ++ C = a :: (A ++ B ++ C) := by simp
    rw [hsplit, joinNlL_cons a _ hne, hxy]
    simp [List.append_assoc]

/-- Python `pat.startswith(pre)` on character lists (first argument is the
string, second the candidate prefix). -/
def startsWithL : Str → Str → Bool
  | _, [] => true
  | [], _ :: _ => false
  | a :: as, b :: bs => a = b && startsWithL as bs

/-- Python `pat in hay` substring test. -/
def containsSubL : Str → Str → Bool
  | [], pat => startsWithL [] pat
  | h :: t, pat => startsWithL (h :: t) pat || containsSubL t pat

theorem startsWithL_append (p b : Str) : startsWithL (p ++ b) p = true := by
  induction p with
  | nil => cases b <;> rfl
  | cons c cs ih => simp [startsWithL, ih]

/-- Any explicit occurrence makes the substring test succeed. -/
theorem containsSubL_mid (a p b : Str) : containsSubL (a ++ p ++ b) p = true := by
  induction a with
  | nil =>
    simp only [List.nil_append]
    cases hp : p ++ b with
    | nil =>
      have hpnil : p = [] := (List.append_eq_nil.mp hp).1
      rw [hpnil]; rfl
    | cons c t =>
      show (startsWithL (c :: t) p || containsSubL t p) = true
      rw [← hp, startsWithL_append, Bool.true_or]
  | cons x a ih =>
    have h1 : (x :: a) ++ p ++ b = x :: (a ++ p ++ b) := by simp
    rw [h1]
    show (startsWithL (x :: (a ++ p ++ b)) p || containsSubL (a ++ p ++ b) p) = true
    rw [ih, Bool.or_true]

/-! ## Region extent computation (operations.py:76-88 and :241-252)

The loop in `VimOperations.edit_function`:

    end_line = function_line
    for i in range(function_line, len(lines)):
        if not lines[i].strip():
            end_line = i + 1
            continue
        line_indentation = len(lines[i]) - len(lines[i].lstrip())
        if line_indentation <= indentation:
            end_line = i
            break
        end_line = i + 1

`function_line` is the 1-indexed definition line, so `i` (a 0-indexed list
index) starts at the line after it.  The identical loop appears again in
`edit_class`. -/

/-- The body of the loop, structurally recursive over the lines still to be
scanned (`rest = lines[i:]`): `i` is the current 0-indexed list index,
`endLine` the accumulator (consulted only when the scan runs off the end,
exactly as in the Python loop where `end_line` is rewritten before every
`continue`). -/
def regionEndGo (indentation : Nat) : List Str → Nat → Nat → Nat
  | [], _, endLine => endLine
  | l :: rest, i, _ =>
    if isBlankL l then regionEndGo indentation rest (i + 1) (i + 1)
    else if indentOf l ≤ indentation then i
    else regionEndGo indentation rest (i + 1) (i + 1)

/-- One faithful rendering of the loop, entered with
`endLine = i = function_line` from both call sites. -/
def regionEndLoop (lines : List Str) (indentation : Nat) (i endLine : Nat) : Nat :=
  regionEndGo indentation (lines.drop i) i endLine

/-- Index-based unfolding of the loop. -/
theorem regionEndLoop_eq (lines : List Str) (I i e : Nat) :
    regionEndLoop lines I i e =
      if h : i < lines.length then
        (if isBlankL (lines.get ⟨i, h⟩) then regionEndLoop lines I (i + 1) (i + 1)
         else if indentOf (lines.get ⟨i, h⟩) ≤ I then i
         else regionEndLoop lines I (i + 1) (i + 1))
      else e := by
  by_cases h : i < lines.length
  · rw [dif_pos h]
    have hd : lines.drop i = lines.get ⟨i, h⟩ :: lines.drop (i + 1) :=
      List.drop_eq_getElem_cons h
    unfold regionEndLoop
    rw [hd]
    rfl
  · rw [dif_neg h]
    have hd : lines.drop i = [] := List.drop_eq_nil_of_le (by omega)
    unfold regionEndLoop
    rw [hd]
    rfl

/-- 1-indexed line access used in statements below (`line1 ls L` is Python
`ls[L-1]` for `L ≥ 1`; out-of-range reads default to the empty line). -/
def line1 (lines : List Str) (L : Nat) : Str := lines.getD (L - 1) []

/-- operations.py:69-88 — the region resolution of `edit_function`: the
explicit out-of-range guard (`if function_line > len(lines): return False`,
modelled as `none`) followed by the indentation loop. -/
def editFunctionResolve (lines : List Str) (functionLine : Nat) : Option Nat :=
  if functionLine > lines.length then none
  else
    let functionDefLine := line1 lines functionLine
    let indentation := indentOf functionDefLine
    some (regionEndLoop lines indentation functionLine functionLine)

/-- operations.py:237-252 — the region resolution of `edit_class`: there is
no range guard, so `lines[function_line - 1]` raises `IndexError` when the
index is out of range; afterwards the same loop runs. -/
def editClassResolve (lines : List Str) (functionLine : Nat) :
    Except Str Nat :=
  if h : functionLine - 1 < lines.length then
    let functionDefLine := lines.get ⟨functionLine - 1, h⟩
    let indentation := indentOf functionDefLine
    Except.ok (regionEndLoop lines indentation functionLine functionLine)
  else Except.error (str ("IndexError: list index out of range"))

/-- The half-open, 1-indexed extent of buffer lines actually replaced by a
successful region edit.  `replace_range(function_line, end_line, …)` assigns
the Python slice `buffer[function_line - 1 : end_line]` (vim_agent.py:406-408),
i.e. 1-indexed lines `function_line … end_line` inclusive, which is the
half-open 1-indexed interval `[function_line, end_line + 1)` — the
`(start_line, end_line)` pair in the exclusive-end convention of the spec. -/
def locatedRegion (lines : List Str) (defLine : Nat) : Option (Nat × Nat) :=
  (editFunctionResolve lines defLine).map (fun e => (defLine, e + 1))

/-- Loop invariant of `regionEndLoop` for the reachable call shape
(`endLine = i`): every scanned line before the result is blank or more
indented than the definition, the result line (when in range) is a non-blank
terminator with indentation at most that of the definition, the result is at least
the start index, and it stays within the buffer when the start does. -/
theorem regionEndLoop_spec (lines : List Str) (I : Nat) :
    ∀ n i, lines.length - i ≤ n →
      (∀ j, i ≤ j → j < regionEndLoop lines I i i → ∀ hj : j < lines.length,
          isBlankL (lines.get ⟨j, hj⟩) = true ∨ I < indentOf (lines.get ⟨j, hj⟩)) ∧
      (∀ hr : regionEndLoop lines I i i < lines.length,
          isBlankL (lines.get ⟨regionEndLoop lines I i i, hr⟩) = false ∧
          indentOf (lines.get ⟨regionEndLoop lines I i i, hr⟩) ≤ I) ∧
      i ≤ regionEndLoop lines I i i ∧
      (i ≤ lines.length → regionEndLoop lines I i i ≤ lines.length) := by
  intro n
  induction n with
  | zero =>
    intro i hi
    have hge : lines.length ≤ i := by omega
    have hr : regionEndLoop lines I i i = i := by
      rw [regionEndLoop_eq]
      simp only [dif_neg (by omega : ¬ i < lines.length)]
    refine ⟨?_, ?_, ?_, ?_⟩
    · intro j h1 h2 hj; omega
    · intro h; omega
    · omega
    · intro h; omega
  | succ n ih =>
    intro i hi
    by_cases hlt : i < lines.length
    · rw [regionEndLoop_eq]
      simp only [dif_pos hlt]
      by_cases hb : isBlankL (lines.get ⟨i, hlt⟩)
      · simp only [if_pos hb]
        obtain ⟨ih1, ih2, ih3, ih4⟩ := ih (i + 1) (by omega)
        refine ⟨?_, ih2, by omega, fun _ => ih4 (by omega)⟩
        intro j h1 h2 hj
        rcases Nat.eq_or_lt_of_le h1 with rfl | h1'
        · exact Or.inl hb
        · exact ih1 j h1' h2 hj
      · simp only [if_neg hb]
        by_cases hind : indentOf (lines.get ⟨i, hlt⟩) ≤ I
        · simp only [if_pos hind]
          refine ⟨?_, ?_, le_refl i, fun _ => by omega⟩
          · intro j h1 h2 hj; omega
          · intro hr
            exact ⟨by simpa using hb, hind⟩
        · simp only [if_neg hind]
          obtain ⟨ih1, ih2, ih3, ih4⟩ := ih (i + 1) (by omega)
          refine ⟨?_, ih2, by omega, fun _ => ih4 (by omega)⟩
          intro j h1 h2 hj
          rcases Nat.eq_or_lt_of_le h1 with rfl | h1'
          · exact Or.inr (by omega)
          · exact ih1 j h1' h2 hj
    · have hr : regionEndLoop lines I i i = i := by
        rw [regionEndLoop_eq]
        simp only [dif_neg hlt]
      refine ⟨?_, ?_, by omega, fun h => by omega⟩
      · intro j h1 h2 hj; omega
      · intro h; omega

/-! ## The editor/session state and the `VimMicroAgent` primitives
(vim_agent.py).  The filesystem is an association list from paths to file
contents in which a write shadows earlier entries. -/

/-- One entry of `VimMicroAgent.changes_record`
(the file/original/new dict of vim_agent.py:438-442). -/
structure ChangeRecord where
  file : String
  original : Str
  new : Str
deriving DecidableEq

/-- The filesystem visible to the agent. -/
abbrev Fs := List (String × Str)

/-- Read a file; `none` when the path does not exist. -/
def fsRead (fs : Fs) (p : String) : Option Str :=
  match fs.find? (fun e => e.1 = p) with
  | some e => some e.2
  | none => none

/-- Write (create or overwrite) a file; the new entry shadows older ones. -/
def fsWrite (fs : Fs) (p : String) (c : Str) : Fs := (p, c) :: fs

theorem fsRead_fsWrite_self (fs : Fs) (p : String) (c : Str) :
    fsRead (fsWrite fs p c) p = some c := by
  simp [fsRead, fsWrite, List.find?]

/-- The whole observable state of the singleton `VimMicroAgent` plus the
filesystem: buffer lines, 1-indexed cursor line, 0-indexed cursor column,
the `_original_content` snapshot slot (`none` models the attribute being
unset, for the Python hasattr check), the change log, the connection flag
and the vim modified-buffer flag (which makes `:edit` / `:enew` fail). -/
structure VimState where
  fs : Fs
  bufName : String
  buffer : List Str
  cursorLine : Nat
  cursorCol : Nat
  originalContent : Option Str
  changesRecord : List ChangeRecord
  connected : Bool
  modified : Bool

/-- vim_agent.py:289-298 `_ensure_connected`: in the model a session is
usable exactly when already connected (connect-on-demand needs the external
server, which the model treats as unavailable to disconnected states). -/
def ensureConnected (s : VimState) : Bool := s.connected

/-- vim_agent.py:262-287 `open_file`: snapshot the on-disk content (empty
for a missing file) into `_original_content`, then `:edit` the file.  With
an unsaved modified buffer `:edit` raises (E37), the exception is caught and
`False` returned — but the snapshot slot has already been overwritten. -/
def open_file (s : VimState) (path : String) : Bool × VimState :=
  if !ensureConnected s then (false, s)
  else
    let orig := (fsRead s.fs path).getD []
    let s1 := { s with originalContent := some orig }
    if s.modified then (false, s1)
    else
      (true, { s1 with
                 bufName := path
                 buffer := splitNlL orig
                 cursorLine := 1
                 cursorCol := 0
                 modified := false })

/-- vim_agent.py:468-483 `get_current_file_content`:
the newline-join of the buffer, `None` when not connected. -/
def get_current_file_content (s : VimState) : Option Str :=
  if !ensureConnected s then none else some (joinNlL s.buffer)

/-- vim_agent.py:300-318 `goto_line`: the Ex command `:{n}`.  Beyond the
last line this raises E16 (caught, `False`); otherwise the cursor moves to
the line, keeping its column clamped to the line (the nvim startofline default is off). -/
def goto_line (s : VimState) (n : Nat) : Bool × VimState :=
  if !ensureConnected s then (false, s)
  else if n ≤ s.buffer.length then
    let target := max n 1
    (true, { s with
               cursorLine := target
               cursorCol := min s.cursorCol ((line1 s.buffer target).length - 1) })
  else (false, s)

/-- vim_agent.py:345-364 `insert_text`: feeds `i<text><Esc>`, so the text is
inserted *before* the character under the cursor; embedded newlines split
the line.  The cursor ends on the last inserted character. -/
def insert_text (s : VimState) (text : Str) : Bool × VimState :=
  if !ensureConnected s then (false, s)
  else
    let l := line1 s.buffer s.cursorLine
    let col := min s.cursorCol l.length
    let combined := l.take col ++ text ++ l.drop col
    let segs := splitNlL combined
    let insSegs := splitNlL text
    (true, { s with
               buffer := s.buffer.take (s.cursorLine - 1) ++ segs ++
                         s.buffer.drop s.cursorLine
               cursorLine := s.cursorLine + (insSegs.length - 1)
               cursorCol := if insSegs.length = 1 then col + text.length - 1
                            else (insSegs.getLastD []).length - 1
               modified := true })

/-- The buffer effect of vim_agent.py:389-412 `replace_range`: the Python
slice assignment `buffer[start-1:end] = new` (for an inverted range Python
inserts without deleting, hence the `max`); an nvim buffer never becomes
empty. -/
def replaceRangeLines (buf : List Str) (startLine endLine : Nat)
    (newText : List Str) : List Str :=
  let a := startLine - 1
  let res := buf.take a ++ newText ++ buf.drop (max a endLine)
  if res.isEmpty then [[]] else res

/-- vim_agent.py:389-412 `replace_range` on the state. -/
def replace_range (s : VimState) (startLine endLine : Nat)
    (newText : List Str) : Bool × VimState :=
  if !ensureConnected s then (false, s)
  else
    let buf := replaceRangeLines s.buffer startLine endLine newText
    (true, { s with
               buffer := buf
               cursorLine := min s.cursorLine buf.length
               modified := true })

/-- vim_agent.py:414-447 `save_file`: `:write` the buffer (an unnamed buffer
raises E32, caught, `False`), read the file back from disk, and append a
change record only when the snapshot attribute is set and the read-back
content differs from it. -/
def save_file (s : VimState) : Bool × VimState :=
  if !ensureConnected s then (false, s)
  else if s.bufName = "" then (false, s)
  else
    let fs2 := fsWrite s.fs s.bufName (joinNlL s.buffer)
    let newContent := (fsRead fs2 s.bufName).getD []
    let s1 := { s with fs := fs2, modified := false }
    match s.originalContent with
    | none => (true, s1)
    | some orig =>
      if newContent = orig then (true, s1)
      else (true, { s1 with
                      changesRecord := s.changesRecord ++
                        [⟨s.bufName, orig, newContent⟩] })

/-! ## Search, raw commands and the change-log rendering -/

/-- The search patterns the repository issues (vim_agent.py:320-343 wraps
them in `/\v…`).  The operations layer only ever builds
`(kw1|kw2|…)\s+{name}\b` patterns (operations.py:45, :204, :217), modelled
structurally as `defPat`; `insert_after_pattern` forwards a caller-supplied
pattern, modelled as the literal-match `litPat`.  `\b` is modelled as the
word-boundary assertion the code evidently intends (as in PCRE dialects;
note that in the native Vim dialect `\b` denotes the backspace character — under
that reading the definition searches would simply never match, so no claim
here leans on the boundary behaviour). -/
inductive Pat where
  | defPat (keywords : List Str) (name : Str)
  | litPat (p : Str)

/-- A regex word character. -/
def isWordChar (c : Char) : Bool := c.isAlpha || c.isDigit || c = '_'

/-- Does `(kw1|…)\s+name\b` match at the start of `rest`?  (`\s+` is taken
greedily; the names searched for never start with whitespace.) -/
def matchesDefAt (keywords : List Str) (name : Str) (rest : Str) : Bool :=
  keywords.any fun kw =>
    startsWithL rest kw &&
    (let after := rest.drop kw.length
     !(after.takeWhile pyIsSpace).isEmpty &&
     (let afterWs := after.dropWhile pyIsSpace
      startsWithL afterWs name &&
      (match afterWs.drop name.length with
       | [] => true
       | c :: _ => !isWordChar c)))

/-- Does the pattern match at the start of `rest`? -/
def patMatches (p : Pat) (rest : Str) : Bool :=
  match p with
  | .defPat kws name => matchesDefAt kws name rest
  | .litPat q => startsWithL rest q

/-- Scan a suffix of the line for the first match, tracking the absolute
column of the head of the suffix. -/
def findInLineGo (p : Pat) : Str → Nat → Option Nat
  | [], _ => none
  | c :: rest, col =>
    if patMatches p (c :: rest) then some col
    else findInLineGo p rest (col + 1)

/-- First match column at or after `col` within one line. -/
def findInLineFrom (p : Pat) (line : Str) (col : Nat) : Option Nat :=
  findInLineGo p (line.drop col) col

/-- Forward search with wrap-around (the vim `/` search, wrapscan on):
positions strictly after the cursor first, then earlier lines, finally the
own line of the cursor up to and including the cursor column. -/
def searchBuf (p : Pat) (buf : List Str) (l c : Nat) : Option (Nat × Nat) :=
  let n := buf.length
  let inLine := fun (i start : Nat) =>
    (findInLineFrom p (line1 buf i) start).map (fun cc => (i, cc))
  (inLine l (c + 1)) <|>
  ((List.range' (l + 1) (n - l)).findSome? fun i => inLine i 0) <|>
  ((List.range' 1 (l - 1)).findSome? fun i => inLine i 0) <|>
  ((findInLineFrom p (line1 buf l) 0).bind fun cc =>
    if cc ≤ c then some (l, cc) else none)

/-- vim_agent.py:320-343 `search`: run the search, then report success iff
the cursor position changed (a failing search raises E486, caught, `False`;
a match exactly at the cursor does not move it and is reported `False`). -/
def search (s : VimState) (p : Pat) : Bool × VimState :=
  if !ensureConnected s then (false, s)
  else
    match searchBuf p s.buffer s.cursorLine s.cursorCol with
    | some (l2, c2) =>
      (!(l2 = s.cursorLine && c2 = s.cursorCol),
       { s with cursorLine := l2, cursorCol := c2 })
    | none => (false, s)

/-- Decimal digits of a number (fuel-driven; `fuel = n + 1` always
suffices since the argument is divided by ten each step). -/
def natToCharsGo : Nat → Nat → Str → Str
  | 0, _, acc => acc
  | fuel + 1, n, acc =>
    if n < 10 then Char.ofNat (48 + n) :: acc
    else natToCharsGo fuel (n / 10) (Char.ofNat (48 + n % 10) :: acc)

/-- Render a line number the way `:echo line(".")` does. -/
def natToChars (n : Nat) : Str := natToCharsGo (n + 1) n []

/-- Python `int(s.strip())`, `none` modelling the `ValueError` raise. -/
def parseIntStr (cs : Str) : Option Nat :=
  let t := pyStripL cs
  if t.isEmpty || !t.all Char.isDigit then none
  else some (t.foldl (fun n c => n * 10 + (c.toNat - 48)) 0)

/-- The raw Ex commands the repository issues through
vim_agent.py:449-466 `execute_command`. -/
inductive VimCmd where
  | echoLine
  | normalJ0
  | normalDollar
  | enew
  | write (path : String)

/-- vim_agent.py:449-466 `execute_command` (`command_output`), restricted to
the five commands the repository uses: `echo line(".")` prints the cursor
line; `normal! j0` moves one line down to column 0; `normal! $` moves to the
last character of the line; `:enew` opens a fresh unnamed buffer (failing
with E37 on an unsaved modified buffer); `:write {path}` writes the buffer
to `path` (naming a previously unnamed buffer). -/
def execute_command (s : VimState) (c : VimCmd) : Option Str × VimState :=
  if !ensureConnected s then (none, s)
  else
    match c with
    | .echoLine => (some (natToChars s.cursorLine), s)
    | .normalJ0 =>
      (some [], { s with
                    cursorLine := min (s.cursorLine + 1) (max s.buffer.length 1)
                    cursorCol := 0 })
    | .normalDollar =>
      (some [], { s with cursorCol := (line1 s.buffer s.cursorLine).length - 1 })
    | .enew =>
      if s.modified then (none, s)
      else (some [], { s with bufName := "", buffer := [[]],
                              cursorLine := 1, cursorCol := 0 })
    | .write p =>
      (some [], { s with
                    fs := fsWrite s.fs p (joinNlL s.buffer)
                    bufName := if s.bufName = "" then p else s.bufName
                    modified := if s.bufName = "" then false else s.modified })

/-- Abstraction of the external `difflib.unified_diff` body used at
vim_agent.py:512-518: one marker line per original and new line.  No claim
below depends on the diff algorithm itself, only on which string the
formatter returns. -/
def renderDiffBody (o n : List Str) : List Str :=
  (o.map fun l => '-' :: l) ++ (n.map fun l => '+' :: l)

/-- The per-record rendering of vim_agent.py:507-520, labelled
`Original:`/`Modified:` with the file path on both sides. -/
def renderChange (c : ChangeRecord) : Str :=
  str "--- Original: " ++ c.file.data ++ str "\n+++ Modified: " ++
    c.file.data ++ str ("\n") ++ joinNlL (renderDiffBody (splitNlL c.original) (splitNlL c.new))

/-- Join with a blank line between entries (`'\n\n'.join`). -/
def joinBlankSep : List Str → Str
  | [] => []
  | [l] => l
  | l :: l2 :: ls => l ++ '\n' :: '\n' :: joinBlankSep (l2 :: ls)

/-- vim_agent.py:494-522 `format_changes_for_chat`: the fixed sentinel on an
empty log, otherwise the per-record diffs joined by blank lines. -/
def format_changes_for_chat (s : VimState) : Str :=
  if s.changesRecord.isEmpty then str ("No changes recorded.")
  else joinBlankSep (s.changesRecord.map renderChange)

/-! ## The high-level operations (operations.py) -/

/-- Result type of the operations that can let a Python exception escape:
`Except.error` carries the exception message together with the state at the
raise point. -/
abbrev OpResult := Except (Str × VimState) (Bool × VimState)

namespace VimOperations

/-- operations.py:25-96 `edit_function`: open, search for
`(def|function|func)\s+{name}\b`, stop on navigation-only calls, read the
cursor line and the buffer content, resolve the region extent (with the
out-of-range guard) and bulk-replace it.  No save is issued. -/
def edit_function (s : VimState) (path : String) (functionName : Str)
    (newContent : Option Str) : OpResult :=
  let r1 := open_file s path
  if !r1.1 then .ok (false, r1.2)
  else
    let r2 := search r1.2 (.defPat [str ("def"), str ("function"), str ("func")] functionName)
    if !r2.1 then .ok (false, r2.2)
    else
      match newContent with
      | none => .ok (true, r2.2)
      | some nc =>
        let r3 := execute_command r2.2 .echoLine
        match r3.1 with
        | none => .ok (false, r3.2)
        | some out =>
          match parseIntStr out with
          | none => .error (str ("ValueError: invalid literal for int"), r3.2)
          | some functionLine =>
            match get_current_file_content r3.2 with
            | none => .ok (false, r3.2)
            | some content =>
              if content.isEmpty then .ok (false, r3.2)
              else
                let lines := splitNlL content
                match editFunctionResolve lines functionLine with
                | none => .ok (false, r3.2)
                | some endLine =>
                  .ok (replace_range r3.2 functionLine endLine (splitNlL nc))

/-- operations.py:132 `line.strip().startswith(('import ', 'from '))`. -/
def isImportLine (l : Str) : Bool :=
  startsWithL (pyStripL l) (str ("import ")) || startsWithL (pyStripL l) (str ("from "))

/-- The accumulator loop of operations.py:130-133: `last_import_line` is
`i + 1` for the last matching 0-indexed `i`, `0` when none matches. -/
def lastImportAux : List Str → Nat → Nat → Nat
  | [], _, acc => acc
  | l :: ls, i, acc => lastImportAux ls (i + 1) (if isImportLine l then i + 1 else acc)

/-- operations.py:130-133. -/
def lastImportLine (lines : List Str) : Nat := lastImportAux lines 0 0

/-- operations.py:98-147 `add_import`: open; fail on empty content; succeed
without modification when the statement already occurs verbatim; otherwise
go to `last_import_line` (or line 1), insert the statement plus a newline at
the cursor, and save. -/
def add_import (s : VimState) (path : String) (stmt : Str) : Bool × VimState :=
  let r1 := open_file s path
  if !r1.1 then (false, r1.2)
  else
    match get_current_file_content r1.2 with
    | none => (false, r1.2)
    | some content =>
      if content.isEmpty then (false, r1.2)
      else if containsSubL content stmt then (true, r1.2)
      else
        let lines := splitNlL content
        let li := lastImportLine lines
        let target := if li = 0 then 1 else li
        let r2 := goto_line r1.2 target
        if !r2.1 then (false, r2.2)
        else
          let r3 := insert_text r2.2 (stmt ++ ['\n'])
          save_file r3.2

/-- operations.py:149-181 `insert_after_pattern`: open, search for the
pattern, `normal! $`, insert a newline plus the content, save. -/
def insert_after_pattern (s : VimState) (path : String) (p : Pat)
    (newContent : Str) : Bool × VimState :=
  let r1 := open_file s path
  if !r1.1 then (false, r1.2)
  else
    let r2 := search r1.2 p
    if !r2.1 then (false, r2.2)
    else
      let r3 := execute_command r2.2 .normalDollar
      let r4 := insert_text r3.2 ('\n' :: newContent)
      if !r4.1 then (false, r4.2)
      else save_file r4.2

/-- operations.py:183-256 `edit_class`: open, search `(class)\s+{name}\b`,
optionally `normal! j0` into the class body and search
`(def)\s+{method}\b`, then resolve and bulk-replace the method region —
with the unguarded `lines[function_line - 1]` access of line 238, so an
out-of-range line raises `IndexError`.  No save is issued. -/
def edit_class (s : VimState) (path : String) (className : Str)
    (methodName : Option Str) (newMethodContent : Option Str) : OpResult :=
  let r1 := open_file s path
  if !r1.1 then .ok (false, r1.2)
  else
    let r2 := search r1.2 (.defPat [str ("class")] className)
    if !r2.1 then .ok (false, r2.2)
    else
      match methodName with
      | none => .ok (true, r2.2)
      | some mn =>
        let r3 := execute_command r2.2 .normalJ0
        let r4 := search r3.2 (.defPat [str ("def")] mn)
        if !r4.1 then .ok (false, r4.2)
        else
          match newMethodContent with
          | none => .ok (true, r4.2)
          | some nmc =>
            let r5 := execute_command r4.2 .echoLine
            match r5.1 with
            | none => .ok (false, r5.2)
            | some out =>
              match parseIntStr out with
              | none => .error (str ("ValueError: invalid literal for int"), r5.2)
              | some functionLine =>
                match get_current_file_content r5.2 with
                | none => .ok (false, r5.2)
                | some content =>
                  if content.isEmpty then .ok (false, r5.2)
                  else
                    let lines := splitNlL content
                    match editClassResolve lines functionLine with
                    | .error e => .error (e, r5.2)
                    | .ok endLine =>
                      .ok (replace_range r5.2 functionLine endLine (splitNlL nmc))

/-- operations.py:258-283 `create_file`: `:enew` (result ignored),
bulk-replace line 1 with the content's lines, `:write {path}` (result
ignored).  The open/save snapshot flow is never touched. -/
def create_file (s : VimState) (path : String) (content : Str) : Bool × VimState :=
  let r1 := execute_command s .enew
  let r2 := replace_range r1.2 1 1 (splitNlL content)
  if !r2.1 then (false, r2.2)
  else
    let r3 := execute_command r2.2 (.write path)
    (true, r3.2)

end VimOperations

/-- The agent state carried by an operation outcome, raised or returned. -/
def opState : OpResult → VimState
  | .ok p => p.2
  | .error p => p.2

/-- The success flag of an operation outcome (`false` when it raised). -/
def opOk : OpResult → Bool
  | .ok p => p.1
  | .error _ => false

/-- Did the operation raise (escape with an exception)? -/
def opRaised : OpResult → Bool
  | .ok _ => false
  | .error _ => true

/-! ## The integration layer (integration.py) -/

/-- The structured result every integration function returns
(integration.py: a dict with `success`, `message`, `changes`). -/
structure EditResult where
  success : Bool
  message : Str
  changes : Str

/-- Outcome of the body inside `edit_file`'s `try`: either a success flag
plus message plus state, or an escaped exception message plus state. -/
abbrev EditFileBody := Except (Str × VimState) (Bool × Str × VimState)

namespace Integration

/-- integration.py:48-51 — the branch taken whenever `function_name` is not
`None`: dispatch to `VimOperations.edit_function` and build the
`Edited function: …` message. -/
def functionEditBranch (s : VimState) (path : String) (fn : Str)
    (content : Option Str) : EditFileBody :=
  match VimOperations.edit_function s path fn content with
  | .ok (b, t) => .ok (b, str ("Edited function: ") ++ fn ++ str (" in ") ++ str path, t)
  | .error e => .error e

/-- integration.py:41-76 — the body of `edit_file`'s `try` block.
`file_path.parent.mkdir` only touches directories, which the filesystem
model does not track.  The `else` branch calls
`vim.get_current_file_content().split('\n')` (line 70); when the content is
`None` this raises `AttributeError`, the only exception reachable in the
model. -/
def editFileBody (s : VimState) (path : String)
    (functionName className methodName content : Option Str) : EditFileBody :=
  match functionName with
  | some fn => functionEditBranch s path fn content
  | none =>
    match className, methodName with
    | some cn, some mn =>
      match VimOperations.edit_class s path cn (some mn) content with
      | .ok (b, t) =>
        .ok (b, str ("Edited method: ") ++ mn ++ str (" in class ") ++ cn ++
                str (" in ") ++ str path, t)
      | .error e => .error e
    | some cn, none =>
      match VimOperations.edit_class s path cn none none with
      | .ok (b, t) =>
        .ok (b, str ("Navigated to class: ") ++ cn ++ str (" in ") ++ str path, t)
      | .error e => .error e
    | none, _ =>
      match content, fsRead s.fs path with
      | some c, none =>
        let r := VimOperations.create_file s path c
        .ok (r.1, str ("Created file: ") ++ str path, r.2)
      | _, _ =>
        let r0 := open_file s path
        match content with
        | some c =>
          match get_current_file_content r0.2 with
          | none =>
            .error (str ("AttributeError: NoneType object has no attribute split"),
                    r0.2)
          | some cur =>
            let r := replace_range r0.2 1 ((splitNlL cur).length + 1) (splitNlL c)
            let r2 := save_file r.2
            .ok (r.1, str ("Edited file: ") ++ str path, r2.2)
        | none => .ok (true, str ("Opened file: ") ++ str path, r0.2)

/-- integration.py:78-93 — computing `changes` on the normal path and the
`except` branch building `{"success": False, "message": "Error: …",
"changes": ""}`. -/
def finishEdit (r : EditFileBody) : EditResult × VimState :=
  match r with
  | .ok p =>
    ({ success := p.1, message := p.2.1, changes := format_changes_for_chat p.2.2 },
     p.2.2)
  | .error p =>
    ({ success := false, message := str ("Error: ") ++ p.1, changes := [] }, p.2)

/-- integration.py:18-93 `edit_file`. -/
def edit_file (s : VimState) (path : String)
    (functionName className methodName content : Option Str) :
    EditResult × VimState :=
  finishEdit (editFileBody s path functionName className methodName content)

/-- integration.py:96-124 `add_import`: the wrapped operation never raises
in the model, so the `except` branch is unreachable; the result always
carries the formatted change log of the post-operation state. -/
def add_import (s : VimState) (path : String) (stmt : Str) :
    EditResult × VimState :=
  let r := VimOperations.add_import s path stmt
  ({ success := r.1
     message := if r.1 then str ("Added import: ") ++ stmt ++ str (" to ") ++ str path
                else str ("Failed to add import: ") ++ stmt ++ str (" to ") ++ str path
     changes := format_changes_for_chat r.2 }, r.2)

/-- integration.py:127-156 `insert_after_pattern`: same shape as
`add_import`. -/
def insert_after_pattern (s : VimState) (path : String) (p : Pat)
    (newContent : Str) : EditResult × VimState :=
  let r := VimOperations.insert_after_pattern s path p newContent
  ({ success := r.1
     message := if r.1 then str ("Inserted content after pattern in ") ++ str path
                else str ("Failed to insert content after pattern in ") ++ str path
     changes := format_changes_for_chat r.2 }, r.2)

end Integration

/-! ## Frame lemmas: which primitives can touch the change log -/

theorem open_file_log (s : VimState) (p : String) :
    ((open_file s p).2).changesRecord = s.changesRecord := by
  unfold open_file
  split
  · rfl
  · split <;> rfl

theorem search_log (s : VimState) (p : Pat) :
    ((search s p).2).changesRecord = s.changesRecord := by
  unfold search
  split
  · rfl
  · split <;> rfl

theorem execute_command_log (s : VimState) (c : VimCmd) :
    ((execute_command s c).2).changesRecord = s.changesRecord := by
  unfold execute_command
  split
  · rfl
  · cases c
    · rfl
    · rfl
    · rfl
    · simp only []
      split <;> rfl
    · rfl

theorem goto_line_log (s : VimState) (n : Nat) :
    ((goto_line s n).2).changesRecord = s.changesRecord := by
  unfold goto_line
  split
  · rfl
  · split <;> rfl

theorem insert_text_log (s : VimState) (t : Str) :
    ((insert_text s t).2).changesRecord = s.changesRecord := by
  unfold insert_text
  split <;> rfl

theorem replace_range_log (s : VimState) (a b : Nat) (t : List Str) :
    ((replace_range s a b t).2).changesRecord = s.changesRecord := by
  unfold replace_range
  split <;> rfl

/-! ## Concrete scenario states used by the examples, counterexamples and
witnesses.  All use a connected session with a fresh (unmodified, unnamed)
buffer, the state in which the singleton agent serves its first request. -/

/-- A connected agent over a file containing a function definition that is
not at the very start of the buffer (so the `/`-search can move onto it). -/
def fnState : VimState := {
  fs := [("a.py", str ("x = 1\ndef f():\n    return 1"))]
  bufName := ""
  buffer := [[]]
  cursorLine := 1
  cursorCol := 0
  originalContent := none
  changesRecord := []
  connected := true
  modified := false }

/-- The buffer of spec §8 Example 1. -/
def exampleBuffer : List Str :=
  [str ("def f():"), str ("    return 1"), str (""), str ("def g():"), str ("    return 2")]

/-- A connected agent over a file with two imports followed by code. -/
def importState : VimState := { fnState with
  fs := [("m.py", str ("import a\nimport b\nx = 1"))] }

/-- A connected agent over an empty (zero-byte) file. -/
def emptyFileState : VimState := { fnState with fs := [("e.py", str (""))] }

/-- A *disconnected* agent over an existing file. -/
def disconnectedState : VimState := { fnState with
  fs := [("f.py", str ("x = 1"))]
  connected := false }

/-- A connected agent with an open named buffer whose content differs from
the snapshot taken at open time. -/
def dirtyBufState : VimState := { fnState with
  fs := []
  bufName := "w.py"
  buffer := [str ("new")]
  originalContent := some (str ("old"))
  modified := true }

/-- Claim C2: on the buffer `["def f():", "    return 1", "", "def g():",
"    return 2"]` with the definition at line 1, the region locator computes
the extent `(start_line, end_line) = (1, 4)` in the spec's exclusive-end
convention, and the replacement produced from it indeed replaces exactly
lines 1-3, keeping `def g():` and its body. -/
theorem locate_example_one :
    locatedRegion exampleBuffer 1 = some (1, 4) ∧
    replaceRangeLines exampleBuffer 1 ((editFunctionResolve exampleBuffer 1).getD 0)
        [str ("NEW")] = [str ("NEW"), str ("def g():"), str ("    return 2")] := by
  decide

/-- Claim C9: `create_file` never appends a `ChangeRecord` — the change log
after the call is the one before it, on every state, path and content,
whether or not the call succeeds. -/
theorem create_file_no_change_record (s : VimState) (path : String) (content : Str) :
    ((VimOperations.create_file s path content).2).changesRecord = s.changesRecord := by
  simp only [VimOperations.create_file]
  split
  · rw [replace_range_log, execute_command_log]
  · simp only []
    rw [execute_command_log, replace_range_log, execute_command_log]

/-- Claim C10: whenever `function_name` is not `None`, `edit_file`
dispatches to the function-edit branch, and `class_name` / `method_name`
have no effect: two calls differing only in those arguments return the same
result, and both equal the function-edit dispatch. -/
theorem edit_file_function_dispatch (s : VimState) (path : String) (fn : Str)
    (cn mn cn2 mn2 content : Option Str) :
    Integration.edit_file s path (some fn) cn mn content =
      Integration.edit_file s path (some fn) cn2 mn2 content ∧
    Integration.edit_file s path (some fn) cn mn content =
      Integration.finishEdit (Integration.functionEditBranch s path fn content) :=
  ⟨rfl, rfl⟩

/-! ## Counterexamples and failing-input evaluations -/

/-- Counterexample to claim C1 as stated: on a concrete connected state, a
named-region edit with a replacement body succeeds, does not raise, changes
the buffer content away from the open-time snapshot — and yet appends no
`ChangeRecord` (and leaves the file on disk untouched): `edit_function`
returns right after `replace_range` without triggering a save. -/
theorem region_edit_appends_no_record_cex :
    opOk (VimOperations.edit_function fnState ("a.py") (str ("f"))
            (some (str ("def f():\n    return 2")))) = true ∧
    opRaised (VimOperations.edit_function fnState ("a.py") (str ("f"))
            (some (str ("def f():\n    return 2")))) = false ∧
    (opState (VimOperations.edit_function fnState ("a.py") (str ("f"))
            (some (str ("def f():\n    return 2"))))).changesRecord = [] ∧
    (opState (VimOperations.edit_function fnState ("a.py") (str ("f"))
            (some (str ("def f():\n    return 2"))))).fs = fnState.fs ∧
    joinNlL (opState (VimOperations.edit_function fnState ("a.py") (str ("f"))
            (some (str ("def f():\n    return 2"))))).buffer ≠
      str ("x = 1\ndef f():\n    return 1") := by
  decide

/-- Did a resolution step raise? -/
def resolveRaised : Except Str Nat → Bool
  | .error _ => true
  | .ok _ => false

/-- The exception message of a raised resolution step. -/
def resolveErrMsg : Except Str Nat → Str
  | .error e => e
  | .ok _ => []

/-- Counterexample to claim C4 as stated: with `def_line = 2` on a one-line
buffer, the class-method path does not report failure — the unguarded list
access raises an `IndexError` (modelled by `Except.error`). -/
theorem edit_class_resolve_raises_cex :
    resolveRaised (editClassResolve [str ("pass")] 2) = true ∧
    resolveErrMsg (editClassResolve [str ("pass")] 2) =
      str ("IndexError: list index out of range") := by
  decide

/-- Counterexample to claim C5 as stated: on a disconnected session over an
existing file, `edit_file` with plain replacement content reaches the
`NoneType` `AttributeError`, and the caught-exception branch returns an
*empty* `changes` string — not the current formatted change log, which is
never empty (here it is the `No changes recorded.` sentinel). -/
theorem edit_file_exception_changes_cex :
    (Integration.edit_file disconnectedState ("f.py") none none none
        (some (str ("y = 2")))).1.success = false ∧
    (Integration.edit_file disconnectedState ("f.py") none none none
        (some (str ("y = 2")))).1.changes = [] ∧
    format_changes_for_chat
        (Integration.edit_file disconnectedState ("f.py") none none none
          (some (str ("y = 2")))).2 = str ("No changes recorded.") ∧
    (Integration.edit_file disconnectedState ("f.py") none none none
        (some (str ("y = 2")))).1.changes ≠
      format_changes_for_chat
        (Integration.edit_file disconnectedState ("f.py") none none none
          (some (str ("y = 2")))).2 := by
  decide

/-- Counterexample to claim C7 as stated: on a file whose content is empty,
`add_import` fails both times (`if not content: return False`), so the
second call reports failure, not success. -/
theorem add_import_twice_empty_file_cex :
    (VimOperations.add_import emptyFileState ("e.py") (str ("import os"))).1 = false ∧
    (VimOperations.add_import
        (VimOperations.add_import emptyFileState ("e.py") (str ("import os"))).2
        ("e.py") (str ("import os"))).1 = false := by
  decide

/-- Claim C3, evaluated at the failing input: on
`import a\nimport b\nx = 1`, `add_import` succeeds but lands the new
statement at line 2 — immediately *before* the last import-prefixed line
(`import b`), not on the line immediately after it: `last_import_line` is
the 1-indexed number of the last import line itself, `goto_line` moves onto
that line, and `i`-insert inserts before the cursor, pushing `import b`
down.  The code's own comment says `add it after the last import`. -/
theorem add_import_inserts_before_last_import :
    (VimOperations.add_import importState ("m.py") (str ("import os"))).1 = true ∧
    fsRead (VimOperations.add_import importState ("m.py") (str ("import os"))).2.fs
        ("m.py") = some (str ("import a\nimport os\nimport b\nx = 1")) := by
  decide

/-! ## Soundness of the region extent, the out-of-range paths, and save -/

theorem line1_eq_get (lines : List Str) (L : Nat) (h : L - 1 < lines.length) :
    line1 lines L = lines.get ⟨L - 1, h⟩ := by
  simp [line1, List.getD_eq_getElem?_getD, List.getElem?_eq_getElem h]

/-- Claim C6: for every buffer and in-range definition line `dl` (with
indentation `I = indentOf (line dl)`), the located region
`(st, E) = locatedRegion lines dl` satisfies `st = dl`, every line in the
1-indexed interval `[dl + 1, E)` is blank or indented strictly deeper than
`I`, and line `E` either lies past the buffer or has indentation at most
`I`.  The property holds for *all* buffers, in particular the
indentation-consistent ones the claim quantifies over. -/
theorem region_end_indentation_sound (lines : List Str) (dl : Nat)
    (h1 : 1 ≤ dl) (h2 : dl ≤ lines.length) :
    ∀ st E, locatedRegion lines dl = some (st, E) →
      st = dl ∧
      (∀ L, dl + 1 ≤ L → L < E →
        isBlankL (line1 lines L) = true ∨
        indentOf (line1 lines dl) < indentOf (line1 lines L)) ∧
      (lines.length < E ∨ indentOf (line1 lines E) ≤ indentOf (line1 lines dl)) := by
  intro st E hE
  have hguard : ¬ dl > lines.length := by omega
  rw [locatedRegion, editFunctionResolve, if_neg hguard] at hE
  have hE2 : (dl, regionEndLoop lines (indentOf (line1 lines dl)) dl dl + 1)
      = (st, E) := by simpa using hE
  injection hE2 with hst hEeq
  subst hst
  subst hEeq
  obtain ⟨inv1, inv2, inv3, inv4⟩ :=
    regionEndLoop_spec lines (indentOf (line1 lines dl)) lines.length dl (by omega)
  have hrlen : regionEndLoop lines (indentOf (line1 lines dl)) dl dl ≤
      lines.length := inv4 h2
  refine ⟨rfl, ?_, ?_⟩
  · intro L hL1 hL2
    have hj : L - 1 < lines.length := by omega
    have hjr : L - 1 < regionEndLoop lines (indentOf (line1 lines dl)) dl dl := by
      omega
    have hres := inv1 (L - 1) (by omega) hjr hj
    rw [line1_eq_get lines L hj]
    exact hres
  · by_cases hr : regionEndLoop lines (indentOf (line1 lines dl)) dl dl <
        lines.length
    · right
      have hj : regionEndLoop lines (indentOf (line1 lines dl)) dl dl + 1 - 1 <
          lines.length := by omega
      rw [line1_eq_get lines _ hj]
      exact (inv2 hr).2
    · left
      omega

/-- Witness for `region_end_indentation_sound` at spec §8 Example 1's
buffer with the definition on line 1. -/
theorem region_end_indentation_sound_witness :
    (1 ≤ 1 ∧ 1 ≤ exampleBuffer.length) ∧
    (∀ st E, locatedRegion exampleBuffer 1 = some (st, E) →
      st = 1 ∧
      (∀ L, 1 + 1 ≤ L → L < E →
        isBlankL (line1 exampleBuffer L) = true ∨
        indentOf (line1 exampleBuffer 1) < indentOf (line1 exampleBuffer L)) ∧
      (exampleBuffer.length < E ∨
        indentOf (line1 exampleBuffer E) ≤ indentOf (line1 exampleBuffer 1))) :=
  ⟨⟨by decide, by decide⟩,
   region_end_indentation_sound exampleBuffer 1 (by decide) (by decide)⟩

/-- Claim C4, amended: when `def_line` exceeds the buffer's line count, the
function-edit resolution reports failure (`none`, from the explicit guard
at operations.py:70-71), while the class-method resolution instead raises
an `IndexError` from the unguarded `lines[function_line - 1]` access at
operations.py:238. -/
theorem out_of_range_region_resolution (lines : List Str) (dl : Nat)
    (h : dl > lines.length) :
    editFunctionResolve lines dl = none ∧
    editClassResolve lines dl =
      Except.error (str ("IndexError: list index out of range")) := by
  constructor
  · simp only [editFunctionResolve, if_pos h]
  · have hn : ¬ dl - 1 < lines.length := by omega
    simp only [editClassResolve, dif_neg hn]

/-- Witness for `out_of_range_region_resolution` on a one-line buffer with
`def_line = 3`. -/
theorem out_of_range_region_resolution_witness :
    3 > [str ("x = 0")].length ∧
    (editFunctionResolve [str ("x = 0")] 3 = none ∧
     editClassResolve [str ("x = 0")] 3 =
       Except.error (str ("IndexError: list index out of range"))) :=
  ⟨by decide, out_of_range_region_resolution [str ("x = 0")] 3 (by decide)⟩

/-- Claim C8: for a connected session holding a named buffer with an
open-time snapshot, `save_file` succeeds, and it appends the
`{file, original, new}` record exactly when the content read back from disk
after the write (which equals the written buffer text) differs from the
snapshot; a save with no net change appends nothing. -/
theorem save_file_records_iff_changed (s : VimState) (orig : Str)
    (hc : s.connected = true) (hn : ¬ s.bufName = "")
    (ho : s.originalContent = some orig) :
    (save_file s).1 = true ∧
    ((save_file s).2.changesRecord =
        s.changesRecord ++ [⟨s.bufName, orig, joinNlL s.buffer⟩] ↔
      joinNlL s.buffer ≠ orig) ∧
    (joinNlL s.buffer = orig → (save_file s).2.changesRecord = s.changesRecord) := by
  have hread : (fsRead (fsWrite s.fs s.bufName (joinNlL s.buffer)) s.bufName).getD []
      = joinNlL s.buffer := by
    rw [fsRead_fsWrite_self]
    rfl
  simp only [save_file, ensureConnected, hc, Bool.not_true, Bool.false_eq_true,
    if_false, if_neg hn, hread, ho]
  by_cases heq : joinNlL s.buffer = orig
  · simp only [if_pos heq]
    refine ⟨by trivial, ?_, fun _ => by trivial⟩
    constructor
    · intro h
      exfalso
      have := congrArg List.length h
      simp at this
    · intro h
      exact absurd heq h
  · simp only [if_neg heq]
    exact ⟨by trivial, ⟨fun _ => heq, fun _ => by trivial⟩, fun h => absurd h heq⟩

/-- Witness for `save_file_records_iff_changed` on a connected state whose
buffer differs from its snapshot. -/
theorem save_file_records_iff_changed_witness :
    (dirtyBufState.connected = true ∧ ¬ dirtyBufState.bufName = "" ∧
      dirtyBufState.originalContent = some (str ("old"))) ∧
    ((save_file dirtyBufState).1 = true ∧
     ((save_file dirtyBufState).2.changesRecord =
         dirtyBufState.changesRecord ++
           [⟨dirtyBufState.bufName, str ("old"), joinNlL dirtyBufState.buffer⟩] ↔
       joinNlL dirtyBufState.buffer ≠ str ("old")) ∧
     (joinNlL dirtyBufState.buffer = str ("old") →
       (save_file dirtyBufState).2.changesRecord = dirtyBufState.changesRecord)) :=
  ⟨⟨by decide, by decide, by decide⟩,
   save_file_records_iff_changed dirtyBufState (str ("old"))
     (by decide) (by decide) (by decide)⟩

/-! ## Region edits never touch the change log (they never save) -/

/-- Claim C1, amended: a named-region edit — `edit_function` or
`edit_class`, with or without a replacement body, successful or not —
leaves the session's change log exactly as it was: the code path ends at
`replace_range` (operations.py:96 and :256) and never calls `save_file`,
the only routine that appends a `ChangeRecord`.  (The concrete
counterexample shows a successful, content-changing run of this kind.) -/
theorem region_edits_never_record (s : VimState) (path : String)
    (fn cn : Str) (nc mn nmc : Option Str) :
    (opState (VimOperations.edit_function s path fn nc)).changesRecord =
      s.changesRecord ∧
    (opState (VimOperations.edit_class s path cn mn nmc)).changesRecord =
      s.changesRecord := by
  constructor
  · simp only [VimOperations.edit_function]
    repeat' split
    all_goals
      simp [opState, open_file_log, search_log, execute_command_log,
        replace_range_log]
  · simp only [VimOperations.edit_class]
    repeat' split
    all_goals
      simp [opState, open_file_log, search_log, execute_command_log,
        replace_range_log]

/-- Claim C5, amended: every integration-layer call returns a structured
result with a success flag, a message and a `changes` string; for
`add_import` and `insert_after_pattern` (whose wrapped operations cannot
raise in the model) and on `edit_file`'s normal path the `changes` string
is the current formatted change log, but `edit_file`'s caught-exception
branch returns the empty string instead (the formatted log itself is never
empty — see the counterexample). -/
theorem integration_results_carry_change_log (s : VimState)
    (path p2 p3 : String) (fn cn mn content : Option Str)
    (stmt nc : Str) (pat : Pat) :
    ((Integration.edit_file s path fn cn mn content).1.changes =
        format_changes_for_chat (Integration.edit_file s path fn cn mn content).2 ∨
      (Integration.edit_file s path fn cn mn content).1.changes = []) ∧
    (Integration.add_import s p2 stmt).1.changes =
      format_changes_for_chat (Integration.add_import s p2 stmt).2 ∧
    (Integration.insert_after_pattern s p3 pat nc).1.changes =
      format_changes_for_chat (Integration.insert_after_pattern s p3 pat nc).2 := by
  refine ⟨?_, rfl, rfl⟩
  rw [Integration.edit_file]
  cases Integration.editFileBody s path fn cn mn content with
  | ok p => left; rfl
  | error p => right; rfl

/-! ## Idempotence of add_import on nonempty files -/

/-- The accumulator of operations.py:130-133 never exceeds the line count. -/
theorem lastImportAux_le (ls : List Str) : ∀ i acc, acc ≤ i →
    VimOperations.lastImportAux ls i acc ≤ i + ls.length := by
  induction ls with
  | nil => intro i acc h; simpa [VimOperations.lastImportAux] using h
  | cons l ls ih =>
    intro i acc h
    simp only [VimOperations.lastImportAux]
    have h2 : (if VimOperations.isImportLine l then i + 1 else acc) ≤ i + 1 := by
      split <;> omega
    have := ih (i + 1) _ h2
    simpa [Nat.add_comm, Nat.add_left_comm] using this

theorem lastImportLine_le (lines : List Str) :
    VimOperations.lastImportLine lines ≤ lines.length := by
  have := lastImportAux_le lines 0 0 (le_refl 0)
  simpa [VimOperations.lastImportLine] using this

/-- Behaviour of `open_file` on a connected, unmodified session over an
existing file. -/
theorem open_file_run (s : VimState) (path : String) (c : Str)
    (hc : s.connected = true) (hm : s.modified = false)
    (hfs : fsRead s.fs path = some c) :
    open_file s path = (true,
      { s with originalContent := some c, bufName := path, buffer := splitNlL c,
               cursorLine := 1, cursorCol := 0, modified := false }) := by
  unfold open_file ensureConnected
  rw [hc, hfs, hm]
  rfl

/-- Behaviour of `goto_line` on a connected session within range. -/
theorem goto_line_run (t : VimState) (n : Nat) (hc : t.connected = true)
    (hn : n ≤ t.buffer.length) :
    goto_line t n = (true,
      { t with cursorLine := max n 1,
               cursorCol := min t.cursorCol
                 ((line1 t.buffer (max n 1)).length - 1) }) := by
  simp only [goto_line, ensureConnected, hc, Bool.not_true, Bool.false_eq_true,
    if_false, if_pos hn]

/-- Behaviour of `insert_text` on a connected session. -/
theorem insert_text_run (t : VimState) (text : Str) (hc : t.connected = true) :
    insert_text t text = (true,
      { t with
          buffer := t.buffer.take (t.cursorLine - 1) ++
            splitNlL ((line1 t.buffer t.cursorLine).take
                (min t.cursorCol (line1 t.buffer t.cursorLine).length) ++ text ++
              (line1 t.buffer t.cursorLine).drop
                (min t.cursorCol (line1 t.buffer t.cursorLine).length)) ++
            t.buffer.drop t.cursorLine,
          cursorLine := t.cursorLine + ((splitNlL text).length - 1),
          cursorCol := if (splitNlL text).length = 1 then
              min t.cursorCol (line1 t.buffer t.cursorLine).length +
                text.length - 1
            else ((splitNlL text).getLastD []).length - 1,
          modified := true }) := by
  simp only [insert_text, ensureConnected, hc, Bool.not_true, Bool.false_eq_true,
    if_false]

/-- `save_file` on a connected session with a named buffer succeeds, leaves
the session connected, clears the modified flag, and writes the joined
buffer to the buffer's file — whatever the snapshot slot holds. -/
theorem save_file_facts (t : VimState) (hc : t.connected = true)
    (hn : ¬ t.bufName = "") :
    (save_file t).1 = true ∧
    (save_file t).2.connected = t.connected ∧
    (save_file t).2.modified = false ∧
    (save_file t).2.fs = fsWrite t.fs t.bufName (joinNlL t.buffer) := by
  simp only [save_file, ensureConnected, hc, Bool.not_true, Bool.false_eq_true,
    if_false, if_neg hn]
  repeat' split
  all_goals exact ⟨by trivial, by trivial, by trivial, by trivial⟩

/-- A first `add_import` on a connected session over a nonempty file that
does not yet contain the statement: it succeeds, leaves the session
connected and saved, and the file now holds the statement followed by a
newline, spliced between the old text. -/
theorem add_import_run (s : VimState) (path : String) (stmt c : Str)
    (hc : s.connected = true) (hm : s.modified = false) (hp : ¬ path = "")
    (hfs : fsRead s.fs path = some c) (hne : c ≠ [])
    (hni : containsSubL c stmt = false) :
    (VimOperations.add_import s path stmt).1 = true ∧
    (VimOperations.add_import s path stmt).2.connected = true ∧
    (VimOperations.add_import s path stmt).2.modified = false ∧
    ∃ x y, fsRead (VimOperations.add_import s path stmt).2.fs path =
      some (x ++ stmt ++ '\n' :: y) := by
  have hopen := open_file_run s path c hc hm hfs
  have hne2 : c.isEmpty = false := by
    cases c with
    | nil => exact absurd rfl hne
    | cons a b => rfl
  have hlen : 0 < (splitNlL c).length :=
    List.length_pos.mpr (splitNlL_ne_nil c)
  have hli : VimOperations.lastImportLine (splitNlL c) ≤ (splitNlL c).length :=
    lastImportLine_le _
  simp only [VimOperations.add_import, hopen, get_current_file_content,
    ensureConnected, hc, Bool.not_true, Bool.false_eq_true, if_false,
    joinNlL_splitNlL, hne2, hni]
  set tgt := if VimOperations.lastImportLine (splitNlL c) = 0 then 1
    else VimOperations.lastImportLine (splitNlL c) with htgt
  have htle : tgt ≤ (splitNlL c).length := by
    rw [htgt]
    split <;> omega
  have hmax : max tgt 1 = tgt := by
    rw [htgt]
    split <;> omega
  have hgoto := goto_line_run
    { fs := s.fs, bufName := path, buffer := splitNlL c, cursorLine := 1,
      cursorCol := 0, originalContent := some c,
      changesRecord := s.changesRecord, connected := true, modified := false }
    tgt rfl htle
  rw [hgoto]
  simp only [Bool.not_true, Bool.false_eq_true, if_false, Nat.zero_min, hmax]
  have hins := insert_text_run
    { fs := s.fs, bufName := path, buffer := splitNlL c, cursorLine := tgt,
      cursorCol := 0, originalContent := some c,
      changesRecord := s.changesRecord, connected := true, modified := false }
    (stmt ++ ['\n']) rfl
  rw [hins]
  simp only [Nat.zero_min, List.take_zero, List.drop_zero, List.nil_append,
    List.append_assoc, List.singleton_append]
  refine ⟨(save_file_facts _ rfl hp).1, (save_file_facts _ rfl hp).2.1,
    (save_file_facts _ rfl hp).2.2.1, ?_⟩
  rw [(save_file_facts _ rfl hp).2.2.2]
  dsimp only
  rw [fsRead_fsWrite_self]
  obtain ⟨x, y, hxy⟩ := joinNlL_mid (List.take (tgt - 1) (splitNlL c))
    (List.drop tgt (splitNlL c))
    (splitNlL (stmt ++ '\n' :: line1 (splitNlL c) tgt)) (splitNlL_ne_nil _)
  rw [joinNlL_splitNlL] at hxy
  rw [List.append_assoc] at hxy
  refine ⟨x, line1 (splitNlL c) tgt ++ y, ?_⟩
  rw [hxy]
  simp [List.append_assoc]

/-- `add_import` on a file that already contains the statement verbatim:
success with no filesystem change (operations.py:121-123). -/
theorem add_import_already_present (t : VimState) (path : String)
    (stmt c1 : Str) (hc : t.connected = true) (hm : t.modified = false)
    (hf : fsRead t.fs path = some c1) (hne : c1 ≠ [])
    (hcont : containsSubL c1 stmt = true) :
    (VimOperations.add_import t path stmt).1 = true ∧
    (VimOperations.add_import t path stmt).2.fs = t.fs := by
  have hopen := open_file_run t path c1 hc hm hf
  have hne2 : c1.isEmpty = false := by
    cases c1 with
    | nil => exact absurd rfl hne
    | cons a b => rfl
  simp only [VimOperations.add_import, hopen, get_current_file_content,
    ensureConnected, hc, Bool.not_true, Bool.false_eq_true, if_false,
    joinNlL_splitNlL, hne2, hcont, if_true]
  exact ⟨by trivial, by trivial⟩

/-- A connected agent over a two-line file with no imports. -/
def plainState : VimState := { fnState with
  fs := [("n.py", str ("x = 1\ny = 2"))] }

/-- Claim C7, amended: on every file whose content is nonempty and does not
already contain the statement, the first `add_import` call succeeds and
performs the one insertion (the statement is now in the file), and the
second call with the same statement reports success while leaving the file
content unchanged.  (On empty-content files `add_import` fails outright,
and on files already containing the statement no insertion happens — see
the counterexample.) -/
theorem add_import_idempotent_on_nonempty (s : VimState) (path : String)
    (stmt c : Str) (hc : s.connected = true) (hm : s.modified = false)
    (hp : ¬ path = "") (hfs : fsRead s.fs path = some c) (hne : c ≠ [])
    (hni : containsSubL c stmt = false) :
    (VimOperations.add_import s path stmt).1 = true ∧
    containsSubL
      ((fsRead (VimOperations.add_import s path stmt).2.fs path).getD [])
      stmt = true ∧
    (VimOperations.add_import (VimOperations.add_import s path stmt).2
        path stmt).1 = true ∧
    (VimOperations.add_import (VimOperations.add_import s path stmt).2
        path stmt).2.fs = (VimOperations.add_import s path stmt).2.fs := by
  obtain ⟨h1, hcn, hmd, x, y, hxy⟩ :=
    add_import_run s path stmt c hc hm hp hfs hne hni
  have hne1 : x ++ stmt ++ '\n' :: y ≠ [] := by
    intro h
    rcases List.append_eq_nil.mp h with ⟨-, hnil⟩
    exact List.cons_ne_nil _ _ hnil
  have hco : containsSubL (x ++ stmt ++ '\n' :: y) stmt = true :=
    containsSubL_mid x stmt ('\n' :: y)
  have hsecond := add_import_already_present
    (VimOperations.add_import s path stmt).2 path stmt (x ++ stmt ++ '\n' :: y)
    hcn hmd hxy hne1 hco
  refine ⟨h1, ?_, hsecond.1, hsecond.2⟩
  rw [hxy]
  simpa using hco

/-- Witness for `add_import_idempotent_on_nonempty` on a concrete two-line
file. -/
theorem add_import_idempotent_on_nonempty_witness :
    (plainState.connected = true ∧ plainState.modified = false ∧
     ¬ "n.py" = "" ∧ fsRead plainState.fs ("n.py") = some (str ("x = 1\ny = 2")) ∧
     str ("x = 1\ny = 2") ≠ [] ∧
     containsSubL (str ("x = 1\ny = 2")) (str ("import os")) = false) ∧
    ((VimOperations.add_import plainState ("n.py") (str ("import os"))).1 = true ∧
     containsSubL ((fsRead (VimOperations.add_import plainState ("n.py")
         (str ("import os"))).2.fs ("n.py")).getD []) (str ("import os")) = true ∧
     (VimOperations.add_import (VimOperations.add_import plainState ("n.py")
         (str ("import os"))).2 ("n.py") (str ("import os"))).1 = true ∧
     (VimOperations.add_import (VimOperations.add_import plainState ("n.py")
         (str ("import os"))).2 ("n.py") (str ("import os"))).2.fs =
       (VimOperations.add_import plainState ("n.py") (str ("import os"))).2.fs) :=
  ⟨⟨by decide, by decide, by decide, by decide, by decide, by decide⟩,
   add_import_idempotent_on_nonempty plainState ("n.py") (str ("import os"))
     (str ("x = 1\ny = 2")) (by decide) (by decide) (by decide) (by decide)
     (by decide) (by decide)⟩
